import Mathlib

/-
Verification of network_shuffle.py: a degree-preserving edge-swap network
randomizer.  The graph model mirrors an undirected networkx.Graph: a node
set, an edge set of unordered pairs (Sym2), optional edge attributes and
the origin label stored as G.graph['file'].  The edge-swap engine
(networkx.double_edge_swap, called at line 21 of the source) is library
code that is not part of the repository sources, so it is modelled from
the specification's explicit algorithm (spec section 4.2).  The delimited
file codec (pandas read_csv / to_csv plus the networkx pandas bridges) is
modelled at the level of parsed cells: a data cell holds an integer node
identifier, and the delimiter layer, which is bijective on rendered
integers, is abstracted away.
-/

/-- Both endpoints of an unordered edge, as a finite set. -/
def edgeEndpoints (e : Sym2 ℤ) : Finset ℤ :=
  Sym2.lift ⟨fun a b => {a, b}, fun a b => Finset.pair_comm a b⟩ e

/-- Model of an undirected networkx graph: node set, edge set of unordered
pairs, edge-attribute entries (edge, attribute name, value), and the origin
label stored by the loader as G.graph['file']. -/
structure NxGraph where
  nodes : Finset ℤ
  edges : Finset (Sym2 ℤ)
  eattrs : List (Sym2 ℤ × String × ℤ)
  label : String
deriving DecidableEq

/-- The networkx representation invariant: every endpoint of an edge is a
member of the node set. -/
def NxGraph.wf (G : NxGraph) : Prop :=
  ∀ e ∈ G.edges, edgeEndpoints e ⊆ G.nodes

instance (G : NxGraph) : Decidable G.wf := by
  unfold NxGraph.wf; infer_instance

/-- Incidence weight of node n in edge e: 1 for an ordinary incident edge,
2 for an incident self-loop (networkx degree convention), 0 otherwise. -/
def incW (n : ℤ) (e : Sym2 ℤ) : ℕ :=
  if n ∈ edgeEndpoints e then (if (edgeEndpoints e).card = 1 then 2 else 1) else 0

/-- Degree of a node: total incidence weight over the edge set, exactly the
count of incident edges (self-loops twice) derived purely from the edge set. -/
def NxGraph.degree (G : NxGraph) (n : ℤ) : ℕ :=
  ∑ e ∈ G.edges, incW n e

/-- The distinct node endpoints reachable through some edge of the graph. -/
def endpointSet (G : NxGraph) : Finset ℤ :=
  G.edges.biUnion edgeEndpoints

/-- Model of networkx Graph.copy(): a deep, independent duplicate.  On
immutable values the duplicate is the value itself; independence of the
working copy is expressed by the engine threading the (original, working)
store and rewiring only the second component. -/
def NxGraph.copy (G : NxGraph) : NxGraph := G

/-- Graph-store add_edge: inserts both endpoints as nodes if absent and the
unordered pair into the edge set (no-op on an existing edge).  The engine
pre-validates against self-loops, so the InvalidEdgeError validation path is
never reached on engine calls. -/
def add_edge (G : NxGraph) (a b : ℤ) : NxGraph :=
  NxGraph.mk (insert a (insert b G.nodes)) (insert s(a, b) G.edges) G.eattrs G.label

/-- Graph-store remove_edge: erases the unordered pair and drops its
attribute entries (networkx discards edge data on removal). -/
def remove_edge (G : NxGraph) (a b : ℤ) : NxGraph :=
  NxGraph.mk G.nodes (G.edges.erase s(a, b))
    (G.eattrs.filter (fun pr => decide (pr.1 ≠ s(a, b)))) G.label

/-- Modelled from the spec: one double edge swap (spec 4.2 step 3d), the body
of networkx.double_edge_swap which is not in the repository sources: remove
edges of endpoints u-v and x-y, add edges u-y and v-x. -/
def applySwap (G : NxGraph) (u v x y : ℤ) : NxGraph :=
  add_edge (add_edge (remove_edge (remove_edge G u v) x y) u y) v x

/-- One sampled pair of oriented edges ((u,v),(x,y)) proposed for a swap. -/
def applySwapP (G : NxGraph) (p : (ℤ × ℤ) × (ℤ × ℤ)) : NxGraph :=
  applySwap G p.1.1 p.1.2 p.2.1 p.2.2

/-- Modelled from the spec: validity of a proposed swap (spec 4.2 steps
3a-3c): both sampled pairs are existing edges, the four endpoints are four
distinct nodes, neither replacement edge is a self-loop, and neither
replacement edge already exists in the working graph. -/
def swapOK (G : NxGraph) (p : (ℤ × ℤ) × (ℤ × ℤ)) : Prop :=
  s(p.1.1, p.1.2) ∈ G.edges ∧ s(p.2.1, p.2.2) ∈ G.edges ∧
  p.1.1 ≠ p.1.2 ∧ p.1.1 ≠ p.2.1 ∧ p.1.1 ≠ p.2.2 ∧
  p.1.2 ≠ p.2.1 ∧ p.1.2 ≠ p.2.2 ∧ p.2.1 ≠ p.2.2 ∧
  s(p.1.1, p.2.2) ∉ G.edges ∧ s(p.1.2, p.2.1) ∉ G.edges

instance (G : NxGraph) (p : (ℤ × ℤ) × (ℤ × ℤ)) : Decidable (swapOK G p) := by
  unfold swapOK; infer_instance

/-- Modelled from the spec: the retry loop of networkx.double_edge_swap
(spec 4.2 step 3), which is not in the repository sources.  The state is the
(original, working) graph store plus the successes and attempts counters;
randomness is an explicit oracle giving the sampled edge pair of each
attempt.  Loops while successes < target and attempts < max_attempts; a
valid sample is applied to the working graph and counts as a success, every
iteration counts as an attempt. -/
def swapLoop (o : ℕ → NxGraph → (ℤ × ℤ) × (ℤ × ℤ)) (target maxAtt : ℚ) :
    ℕ → NxGraph × NxGraph → ℕ → ℕ → (NxGraph × NxGraph) × ℕ × ℕ
  | 0, st, sc, att => (st, sc, att)
  | fuel + 1, st, sc, att =>
    if (sc : ℚ) < target ∧ (att : ℚ) < maxAtt then
      if swapOK st.2 (o att st.2) then
        swapLoop o target maxAtt fuel (st.1, applySwapP st.2 (o att st.2)) (sc + 1) (att + 1)
      else
        swapLoop o target maxAtt fuel st sc (att + 1)
    else (st, sc, att)

/-- How an engine run ended: target met, attempt budget exhausted before the
target (the NetworkXAlgorithmError path of the source, a warning condition),
or a structurally invalid input graph (the spec's InsufficientGraphError, the
NetworkXError path of the source). -/
inductive SwapOutcome
  | completed
  | budgetExhausted
  | insufficientGraph
deriving DecidableEq

/-- Result of an engine run: the final (original, working) store, the two
counters, and how the run ended. -/
structure SwapResult where
  store : NxGraph × NxGraph
  successes : ℕ
  attempts : ℕ
  outcome : SwapOutcome
deriving DecidableEq

/-- Modelled from the spec: networkx.double_edge_swap (called at line 21 of
the source but not part of the repository sources), per spec section 4.2.
A graph with fewer than 2 edges or fewer than 4 reachable distinct
endpoints is structurally invalid and aborts immediately before any loop
iteration (spec step 6); otherwise the retry loop runs with enough fuel to
reach either the swap target or the attempt ceiling, and exhausting the
ceiling before the target is reported as the budgetExhausted condition
(spec step 5). -/
def double_edge_swap (o : ℕ → NxGraph → (ℤ × ℤ) × (ℤ × ℤ)) (target maxAtt : ℚ)
    (st : NxGraph × NxGraph) : SwapResult :=
  if st.2.edges.card < 2 ∨ (endpointSet st.2).card < 4 then
    SwapResult.mk st 0 0 SwapOutcome.insufficientGraph
  else
    (fun r => SwapResult.mk r.1 r.2.1 r.2.2
        (if (r.2.1 : ℚ) < target then SwapOutcome.budgetExhausted else SwapOutcome.completed))
      (swapLoop o target maxAtt (Int.toNat ⌈maxAtt⌉ + 1) st 0 0)

/-- The swap target of a run: edge count times the caller-supplied swap
factor (source line 21, nswap argument). -/
def targetSwaps (G : NxGraph) (n_swaps : ℚ) : ℚ :=
  (G.edges.card : ℚ) * n_swaps

/-- The attempt ceiling of a run: the swap target times 10 (source line 21,
max_tries argument). -/
def maxAttempts (G : NxGraph) (n_swaps : ℚ) : ℚ :=
  targetSwaps G n_swaps * 10

/-- Content of the budget-exhaustion warning emitted at lines 23-24 of the
source: the attempt count it names (edge_len*10 in the source string), the
desired swap count it names (edge_len*n_swaps), and the origin label
G.graph['file']. -/
structure SwapWarning where
  attemptsNamed : ℚ
  targetNamed : ℚ
  file : String
deriving DecidableEq

/-- Diagnostics produced by shuffle_network: the optional budget-exhaustion
warning, whether the NETWORK ERROR branch printed, and the edge-overlap
similarity printed with the origin label (lines 22-31 of the source). -/
structure ShuffleReport where
  budgetWarning : Option SwapWarning
  networkErrorPrinted : Bool
  similarity : ℚ
  file : String
deriving DecidableEq

/-- shuffle_network (source lines 7-33): duplicate the input graph, run the
double-edge-swap engine over the (original, duplicate) store with
nswap = edge_len * n_swaps and max_tries = edge_len * n_swaps * 10, turn the
budget-exhaustion exception into a warning whose text names edge_len * 10
attempts (the literal string of source line 23) and the insufficient-graph
exception into the NETWORK ERROR print, then report the edge-overlap
similarity |E(G) ∩ E(G_shuff)| / edge_len and return the store. -/
def shuffle_network (o : ℕ → NxGraph → (ℤ × ℤ) × (ℤ × ℤ)) (G : NxGraph) (n_swaps : ℚ) :
    (NxGraph × NxGraph) × ShuffleReport :=
  (fun r => (r.store,
    ShuffleReport.mk
      (if r.outcome = SwapOutcome.budgetExhausted then
        some (SwapWarning.mk ((G.edges.card : ℚ) * 10) ((G.edges.card : ℚ) * n_swaps)
          r.store.1.label)
      else none)
      (decide (r.outcome = SwapOutcome.insufficientGraph))
      (((r.store.1.edges ∩ r.store.2.edges).card : ℚ) / ((G.edges.card : ℚ)))
      r.store.1.label))
    (double_edge_swap o (targetSwaps G n_swaps) (maxAttempts G n_swaps) (G, G.copy))

/-- An on-disk edge-list file: its path (used as the graph's origin label)
and its parsed content.  none models a zero-byte file, which has no header
row at all; some (header, dataRows) models a delimited file with a header
line and its data rows, each cell holding an integer node identifier. -/
structure DataFile where
  name : String
  content : Option (List String × List (List ℤ))
deriving DecidableEq

/-- The exceptions the loader can encounter: pandas EmptyDataError from
read_csv on an empty file, and IndexError from positional column selection
beyond the header width. -/
inductive LoadErr
  | emptyDataError
  | indexError
deriving DecidableEq

instance {e a : Type} [DecidableEq e] [DecidableEq a] : DecidableEq (Except e a) := fun p q =>
  match p, q with
  | Except.error e1, Except.error e2 => decidable_of_iff (e1 = e2) (by simp)
  | Except.error _, Except.ok _ => isFalse (by simp)
  | Except.ok _, Except.error _ => isFalse (by simp)
  | Except.ok v1, Except.ok v2 => decidable_of_iff (v1 = v2) (by simp)

/-- Model of pandas read_csv with an optional nrows cap: an empty file
raises EmptyDataError, otherwise the header row and at most nrows data rows
are returned. -/
def read_csv (content : Option (List String × List (List ℤ))) (nrows : Option ℕ) :
    Except LoadErr (List String × List (List ℤ)) :=
  match content with
  | none => Except.error LoadErr.emptyDataError
  | some (hdr, rows) =>
    Except.ok (hdr, match nrows with
      | some n => rows.take n
      | none => rows)

/-- The id_type argument of the loader; with cells modelled as integers the
Entrez astype(int) coercion of source lines 72-74 is the identity. -/
inductive IdType
  | Entrez
  | Symbol
deriving DecidableEq

/-- Cell of a data row at a column position (pandas scalar access). -/
def cell (r : List ℤ) (i : ℕ) : ℤ :=
  r.getD i 0

/-- Model of networkx.from_pandas_edgelist: one edge per data row taken from
the named source and target columns (selected by name, hence by the position
of the name in the header), all endpoints as nodes, and, when requested, the
remaining columns retained as edge attributes. -/
def from_pandas_edgelist (hdr : List String) (rows : List (List ℤ))
    (source target : String) (keep_attributes : Bool) : NxGraph :=
  NxGraph.mk
    ((rows.map (fun r => cell r (hdr.indexOf source))).toFinset ∪
      (rows.map (fun r => cell r (hdr.indexOf target))).toFinset)
    ((rows.map (fun r => s(cell r (hdr.indexOf source), cell r (hdr.indexOf target)))).toFinset)
    (if keep_attributes then
      rows.foldr (fun r acc =>
        (((List.range hdr.length).filter
            (fun j => decide (j ≠ hdr.indexOf source ∧ j ≠ hdr.indexOf target))).map
          (fun j => (s(cell r (hdr.indexOf source), cell r (hdr.indexOf target)),
            hdr.getD j (""), cell r j))) ++ acc) []
    else [])
    ""

/-- load_edgelist_to_networkx (source lines 46-91).  read_csv runs at lines
66-69, outside the try block of lines 75-85, so its EmptyDataError
propagates; the positional column selection of line 71 also runs outside the
try block, so its IndexError propagates; the KeyError / EmptyDataError
handlers of lines 80-85 only guard from_pandas_edgelist, which in this model
cannot raise.  On success the origin label G.graph['file'] is set to the
file path (line 86). -/
def load_edgelist_to_networkx (datafile : DataFile) (id_type : IdType) (testmode : Bool)
    (node_cols : List ℕ) (keep_attributes : Bool) : Except LoadErr NxGraph :=
  match read_csv datafile.content (if testmode then some 1000 else none) with
  | Except.error e => Except.error e
  | Except.ok df =>
    match df.1.get? (node_cols.getD 0 0) with
    | none => Except.error LoadErr.indexError
    | some source_col =>
      match df.1.get? (node_cols.getD 1 1) with
      | none => Except.error LoadErr.indexError
      | some target_col =>
        (fun G => Except.ok (NxGraph.mk G.nodes G.edges G.eattrs datafile.name))
          (from_pandas_edgelist df.1 df.2 source_col target_col keep_attributes)

/-- The serialization-misconfiguration failure: the assert of source line
107 rejecting identical source and target header names. -/
inductive WriteErr
  | invalidColumnNames
deriving DecidableEq

/-- Canonical oriented representative of an unordered edge, used to lay the
edge out as a two-cell row. -/
def sortPair (e : Sym2 ℤ) : ℤ × ℤ :=
  Sym2.lift ⟨fun a b => (min a b, max a b), fun a b => by
    simp only [min_comm a b, max_comm a b]⟩ e

/-- Row order for serialization: lexicographic order on the canonical
oriented representatives.  The source lets the library pick an iteration
order; any definite order serves, since the codec claims only concern the
edge set. -/
def pairLE (p q : ℤ × ℤ) : Prop :=
  p.1 < q.1 ∨ (p.1 = q.1 ∧ p.2 ≤ q.2)

instance : DecidableRel pairLE := fun p q => by
  unfold pairLE; infer_instance

instance : IsTrans (ℤ × ℤ) pairLE where
  trans p q r hpq hqr := by
    unfold pairLE at *; omega

instance : IsAntisymm (ℤ × ℤ) pairLE where
  antisymm p q hpq hqp := by
    have h : p.1 = q.1 ∧ p.2 = q.2 := by unfold pairLE at *; omega
    exact Prod.ext_iff.mpr h

instance : IsTotal (ℤ × ℤ) pairLE where
  total p q := by
    unfold pairLE; omega

/-- Model of networkx.to_pandas_edgelist: one two-cell data row per edge of
the graph. -/
def to_pandas_edgelist (G : NxGraph) : List (List ℤ) :=
  ((G.edges.image sortPair).sort pairLE).map (fun p => [p.1, p.2])

/-- write_networkx_to_file (source lines 94-110): assert the two header
names differ, then emit the header row [source, target] followed by one
delimiter-separated two-cell row per edge, with no index column
(to_csv index=False). -/
def write_networkx_to_file (G : NxGraph) (source target : String) :
    Except WriteErr (List String × List (List ℤ)) :=
  if source = target then Except.error WriteErr.invalidColumnNames
  else Except.ok ([source, target], to_pandas_edgelist G)

/-- Python bool() coercion on an int, used on the testMode and verbose
arguments at source lines 121-122. -/
def pyBool (n : ℤ) : Bool :=
  decide (n ≠ 0)

/-- The parsed command-line options that matter downstream. -/
structure Args where
  nSwaps : ℚ
  testMode : Bool
  verbose : Bool
  node_cols : List ℕ
deriving DecidableEq

/-- parse_arguments (source lines 112-123): nSwaps is a float defaulting to
1, testMode an int defaulting to 1 then coerced with bool(), verbose an int
defaulting to 0 then coerced, node_cols defaulting to [0, 1].  An argument
given as none stands for an option absent from the command line. -/
def parse_arguments (nSwapsArg : Option ℚ) (testModeArg verboseArg : Option ℤ)
    (nodeColsArg : Option (List ℕ)) : Args :=
  Args.mk (nSwapsArg.getD 1) (pyBool (testModeArg.getD 1)) (pyBool (verboseArg.getD 0))
    (nodeColsArg.getD [0, 1])

/-- Concrete 4-cycle graph of spec Scenario A, used as a witness input. -/
def cG1 : NxGraph := ⟨{1, 2, 3, 4}, {s(1, 2), s(2, 3), s(3, 4), s(4, 1)}, [], "c.txt"⟩

/-- Oracle for the 4-cycle witness: always proposes edges (1,2) and (4,3). -/
def cOr1 : ℕ → NxGraph → (ℤ × ℤ) × (ℤ × ℤ) := fun _ _ => ((1, 2), (4, 3))

/-- Concrete two-edge graph on four nodes, used for the exhaustion run. -/
def cG3 : NxGraph := ⟨{1, 2, 3, 4}, {s(1, 2), s(3, 4)}, [], "g.txt"⟩

/-- Degenerate oracle that always proposes the same edge twice, so that no
attempt ever succeeds and the attempt budget is exhausted. -/
def cOr3 : ℕ → NxGraph → (ℤ × ℤ) × (ℤ × ℤ) := fun _ _ => ((1, 2), (1, 2))

/-- Concrete three-edge perfect matching on six nodes, used for the
fractional-swap-factor run. -/
def cG6 : NxGraph := ⟨{1, 2, 3, 4, 5, 6}, {s(1, 2), s(3, 4), s(5, 6)}, [], "h.txt"⟩

/-- Oracle producing two valid swaps in a row on cG6. -/
def cOr6 : ℕ → NxGraph → (ℤ × ℤ) × (ℤ × ℤ) := fun att _ =>
  if att = 0 then ((1, 2), (3, 4)) else ((1, 4), (5, 6))

/-- The rational one half, given in normalized form so that the kernel can
evaluate comparisons against it. -/
def cHalf : ℚ := ⟨1, 2, by decide, by decide⟩

/-- Concrete 3-node triangle of spec Scenario B: only 3 reachable distinct
endpoints. -/
def cGT : NxGraph := ⟨{1, 2, 3}, {s(1, 2), s(2, 3), s(1, 3)}, [], "t.txt"⟩

/-- Arbitrary oracle for the triangle run. -/
def cOrT : ℕ → NxGraph → (ℤ × ℤ) × (ℤ × ℤ) := fun _ _ => ((1, 2), (2, 3))

/-- Concrete single-edge graph loaded in the row-cap witness. -/
def cG10w : NxGraph := ⟨{1, 2}, {s(1, 2)}, [], "w.txt"⟩

-- Helper lemmas about edges and incidence weights

theorem edgeEndpoints_mk (a b : ℤ) : edgeEndpoints s(a, b) = {a, b} := by
  simp [edgeEndpoints]

theorem mk_sortPair (e : Sym2 ℤ) : s((sortPair e).1, (sortPair e).2) = e := by
  induction e using Sym2.ind with
  | _ p q =>
    simp only [sortPair, Sym2.lift_mk]
    rcases le_total p q with h | h
    · simp [min_eq_left h, max_eq_right h]
    · simp only [min_eq_right h, max_eq_left h]
      exact Sym2.eq_swap

theorem sortPair_injective : Function.Injective sortPair := by
  intro e f h
  rw [← mk_sortPair e, ← mk_sortPair f, h]

theorem incW_mk (n a b : ℤ) :
    incW n s(a, b) = if n = a ∨ n = b then (if a = b then 2 else 1) else 0 := by
  unfold incW
  rw [edgeEndpoints_mk]
  by_cases hab : a = b
  · subst hab
    simp [Finset.mem_insert]
  · have hc : ({a, b} : Finset ℤ).card = 2 := Finset.card_pair hab
    simp [Finset.mem_insert, hc, hab]

theorem swap_incW (u v x y n : ℤ) (huv : u ≠ v) (hux : u ≠ x) (huy : u ≠ y)
    (hvx : v ≠ x) (hvy : v ≠ y) (hxy : x ≠ y) :
    incW n s(u, v) + incW n s(x, y) = incW n s(u, y) + incW n s(v, x) := by
  rw [incW_mk, incW_mk, incW_mk, incW_mk]
  by_cases h1 : n = u <;> by_cases h2 : n = v <;> by_cases h3 : n = x <;> by_cases h4 : n = y <;>
    simp_all

theorem wf_mem_left (G : NxGraph) (hwf : G.wf) (a b : ℤ) (h : s(a, b) ∈ G.edges) :
    a ∈ G.nodes :=
  hwf _ h (by rw [edgeEndpoints_mk]; exact Finset.mem_insert_self a {b})

theorem wf_mem_right (G : NxGraph) (hwf : G.wf) (a b : ℤ) (h : s(a, b) ∈ G.edges) :
    b ∈ G.nodes :=
  hwf _ h (by rw [edgeEndpoints_mk]; exact Finset.mem_insert_of_mem (Finset.mem_singleton_self b))

-- Properties of a single applied swap

theorem applySwap_nodes (G : NxGraph) (u v x y : ℤ) (hu : u ∈ G.nodes) (hv : v ∈ G.nodes)
    (hx : x ∈ G.nodes) (hy : y ∈ G.nodes) : (applySwap G u v x y).nodes = G.nodes := by
  show insert v (insert x (insert u (insert y G.nodes))) = G.nodes
  rw [Finset.insert_eq_self.mpr hy, Finset.insert_eq_self.mpr hu, Finset.insert_eq_self.mpr hx,
    Finset.insert_eq_self.mpr hv]

theorem applySwap_wf (G : NxGraph) (u v x y : ℤ) (hwf : G.wf) (hu : u ∈ G.nodes)
    (hv : v ∈ G.nodes) (hx : x ∈ G.nodes) (hy : y ∈ G.nodes) : (applySwap G u v x y).wf := by
  intro e he
  rw [applySwap_nodes G u v x y hu hv hx hy]
  have he' : e = s(v, x) ∨ e = s(u, y) ∨ e ∈ G.edges := by
    have hm : e ∈ insert s(v, x) (insert s(u, y) ((G.edges.erase s(u, v)).erase s(x, y))) := he
    rcases Finset.mem_insert.mp hm with h | h
    · exact Or.inl h
    rcases Finset.mem_insert.mp h with h' | h'
    · exact Or.inr (Or.inl h')
    · exact Or.inr (Or.inr (Finset.erase_subset _ _ (Finset.erase_subset _ _ h')))
  rcases he' with rfl | rfl | hmem
  · rw [edgeEndpoints_mk]
    exact Finset.insert_subset hv (Finset.singleton_subset_iff.mpr hx)
  · rw [edgeEndpoints_mk]
    exact Finset.insert_subset hu (Finset.singleton_subset_iff.mpr hy)
  · exact hwf e hmem

theorem applySwap_degree (G : NxGraph) (u v x y : ℤ)
    (h1 : s(u, v) ∈ G.edges) (h2 : s(x, y) ∈ G.edges)
    (huv : u ≠ v) (hux : u ≠ x) (huy : u ≠ y) (hvx : v ≠ x) (hvy : v ≠ y) (hxy : x ≠ y)
    (h3 : s(u, y) ∉ G.edges) (h4 : s(v, x) ∉ G.edges) (n : ℤ) :
    (applySwap G u v x y).degree n = G.degree n := by
  have hne12 : s(u, v) ≠ s(x, y) := by
    rw [Ne, Sym2.eq_iff]
    rintro (⟨ha, hb⟩ | ⟨ha, hb⟩)
    · exact hux ha
    · exact huy ha
  have hne34 : s(v, x) ≠ s(u, y) := by
    rw [Ne, Sym2.eq_iff]
    rintro (⟨ha, hb⟩ | ⟨ha, hb⟩)
    · exact huv ha.symm
    · exact hvy ha
  have h2' : s(x, y) ∈ G.edges.erase s(u, v) := Finset.mem_erase.mpr ⟨Ne.symm hne12, h2⟩
  have hA : G.degree n
      = incW n s(u, v) + (incW n s(x, y) + ∑ e ∈ (G.edges.erase s(u, v)).erase s(x, y), incW n e) := by
    show ∑ e ∈ G.edges, incW n e = _
    conv_lhs => rw [← Finset.insert_erase h1]
    rw [Finset.sum_insert (Finset.not_mem_erase _ _)]
    congr 1
    conv_lhs => rw [← Finset.insert_erase h2']
    rw [Finset.sum_insert (Finset.not_mem_erase _ _)]
  have hni2 : s(u, y) ∉ (G.edges.erase s(u, v)).erase s(x, y) :=
    fun hmem => h3 (Finset.erase_subset _ _ (Finset.erase_subset _ _ hmem))
  have hni1 : s(v, x) ∉ insert s(u, y) ((G.edges.erase s(u, v)).erase s(x, y)) := by
    rw [Finset.mem_insert]
    rintro (h | h)
    · exact hne34 h
    · exact h4 (Finset.erase_subset _ _ (Finset.erase_subset _ _ h))
  have hB : (applySwap G u v x y).degree n
      = incW n s(v, x) + (incW n s(u, y) + ∑ e ∈ (G.edges.erase s(u, v)).erase s(x, y), incW n e) := by
    show ∑ e ∈ insert s(v, x) (insert s(u, y) ((G.edges.erase s(u, v)).erase s(x, y))), incW n e = _
    rw [Finset.sum_insert hni1, Finset.sum_insert hni2]
  have hkey := swap_incW u v x y n huv hux huy hvx hvy hxy
  omega

-- Properties of the engine retry loop

theorem swapLoop_orig (o : ℕ → NxGraph → (ℤ × ℤ) × (ℤ × ℤ)) (t m : ℚ) (fuel : ℕ) :
    ∀ st sc att, (swapLoop o t m fuel st sc att).1.1 = st.1 := by
  induction fuel with
  | zero => intro st sc att; rfl
  | succ f ih =>
    intro st sc att
    rw [swapLoop]
    split_ifs with hc hk
    · exact ih _ _ _
    · exact ih _ _ _
    · rfl

theorem swapLoop_inv (o : ℕ → NxGraph → (ℤ × ℤ) × (ℤ × ℤ)) (t m : ℚ) (fuel : ℕ) :
    ∀ st sc att, st.2.wf →
      (swapLoop o t m fuel st sc att).1.2.wf ∧
      (swapLoop o t m fuel st sc att).1.2.nodes = st.2.nodes ∧
      ∀ n, (swapLoop o t m fuel st sc att).1.2.degree n = st.2.degree n := by
  induction fuel with
  | zero => intro st sc att hwf; exact ⟨hwf, rfl, fun n => rfl⟩
  | succ f ih =>
    intro st sc att hwf
    rw [swapLoop]
    split_ifs with hc hk
    · have hk' := hk
      simp only [swapOK] at hk'
      obtain ⟨m1, m2, d1, d2, d3, d4, d5, d6, n1, n2⟩ := hk'
      have hu := wf_mem_left st.2 hwf _ _ m1
      have hv := wf_mem_right st.2 hwf _ _ m1
      have hx := wf_mem_left st.2 hwf _ _ m2
      have hy := wf_mem_right st.2 hwf _ _ m2
      have hwf' : (applySwapP st.2 (o att st.2)).wf :=
        applySwap_wf st.2 _ _ _ _ hwf hu hv hx hy
      obtain ⟨iw, inodes, ideg⟩ :=
        ih (st.1, applySwapP st.2 (o att st.2)) (sc + 1) (att + 1) hwf'
      refine ⟨iw, ?_, ?_⟩
      · exact inodes.trans (applySwap_nodes st.2 _ _ _ _ hu hv hx hy)
      · intro n
        exact (ideg n).trans
          (applySwap_degree st.2 _ _ _ _ m1 m2 d1 d2 d3 d4 d5 d6 n1 n2 n)
    · exact ih st sc (att + 1) hwf
    · exact ⟨hwf, rfl, fun n => rfl⟩

theorem swapLoop_bounds (o : ℕ → NxGraph → (ℤ × ℤ) × (ℤ × ℤ)) (t m : ℚ) (fuel : ℕ) :
    ∀ (st : NxGraph × NxGraph) (sc att : ℕ), (sc : ℚ) < t + 1 → (att : ℚ) < m + 1 →
      ((swapLoop o t m fuel st sc att).2.1 : ℚ) < t + 1 ∧
      ((swapLoop o t m fuel st sc att).2.2 : ℚ) < m + 1 := by
  induction fuel with
  | zero => intro st sc att hsc hatt; exact ⟨hsc, hatt⟩
  | succ f ih =>
    intro st sc att hsc hatt
    rw [swapLoop]
    split_ifs with hc hk
    · refine ih _ (sc + 1) (att + 1) ?_ ?_
      · push_cast
        linarith [hc.1]
      · push_cast
        linarith [hc.2]
    · refine ih st sc (att + 1) hsc ?_
      push_cast
      linarith [hc.2]
    · exact ⟨hsc, hatt⟩

-- Properties of the engine

theorem double_edge_swap_store1 (o : ℕ → NxGraph → (ℤ × ℤ) × (ℤ × ℤ)) (t m : ℚ)
    (st : NxGraph × NxGraph) : (double_edge_swap o t m st).store.1 = st.1 := by
  rw [double_edge_swap]
  split_ifs with h
  · rfl
  · exact swapLoop_orig o t m _ st 0 0

theorem double_edge_swap_inv (o : ℕ → NxGraph → (ℤ × ℤ) × (ℤ × ℤ)) (t m : ℚ)
    (st : NxGraph × NxGraph) (h : st.2.wf) :
    (double_edge_swap o t m st).store.2.wf ∧
    (double_edge_swap o t m st).store.2.nodes = st.2.nodes ∧
    ∀ n, (double_edge_swap o t m st).store.2.degree n = st.2.degree n := by
  rw [double_edge_swap]
  split_ifs with hbad
  · exact ⟨h, rfl, fun n => rfl⟩
  · exact swapLoop_inv o t m _ st 0 0 h

theorem double_edge_swap_bounds (o : ℕ → NxGraph → (ℤ × ℤ) × (ℤ × ℤ)) (t m : ℚ)
    (st : NxGraph × NxGraph) (ht : 0 ≤ t) (hm : 0 ≤ m) :
    ((double_edge_swap o t m st).successes : ℚ) < t + 1 ∧
    ((double_edge_swap o t m st).attempts : ℚ) < m + 1 := by
  rw [double_edge_swap]
  split_ifs with hbad
  · constructor <;> (dsimp only; push_cast; linarith)
  · exact swapLoop_bounds o t m _ st 0 0 (by push_cast; linarith) (by push_cast; linarith)

theorem shuffle_network_similarity (o : ℕ → NxGraph → (ℤ × ℤ) × (ℤ × ℤ)) (G : NxGraph)
    (n_swaps : ℚ) :
    (shuffle_network o G n_swaps).2.similarity =
      ((G.edges ∩ (shuffle_network o G n_swaps).1.2.edges).card : ℚ) / (G.edges.card : ℚ) := by
  simp only [shuffle_network]
  rw [double_edge_swap_store1]

-- Claim theorems

/-- C1: For every input graph satisfying the engine's precondition (at least
2 edges and at least 4 reachable distinct endpoints), the graph returned by
shuffle_network has exactly the same node set as the input and, for every
node n, the same degree as in the input, whether the run completed its swap
target or exhausted its attempt budget (the theorem holds for every oracle,
hence for every outcome). -/
theorem spec_c1 (G : NxGraph) (o : ℕ → NxGraph → (ℤ × ℤ) × (ℤ × ℤ)) (n_swaps : ℚ)
    (hwf : G.wf) (hedges : 2 ≤ G.edges.card) (hends : 4 ≤ (endpointSet G).card) :
    (shuffle_network o G n_swaps).1.2.nodes = G.nodes ∧
    ∀ n, (shuffle_network o G n_swaps).1.2.degree n = G.degree n := by
  have h := double_edge_swap_inv o (targetSwaps G n_swaps) (maxAttempts G n_swaps)
    (G, G.copy) hwf
  exact ⟨h.2.1, h.2.2⟩

/-- Witness for C1: the 4-cycle of spec Scenario A satisfies the
precondition without degenerating the theorem. -/
theorem spec_c1_witness : (shuffle_network cOr1 cG1 1).1.2.nodes = cG1.nodes :=
  (spec_c1 cG1 cOr1 1 (by decide) (by decide) (by decide)).1

/-- C2: If the graph is structurally invalid for swapping (fewer than 2
edges, or fewer than 4 distinct node endpoints reachable), the swap engine
aborts immediately with the InsufficientGraphError outcome: zero attempts,
zero successes, working graph untouched, instead of looping or producing a
completed result. -/
theorem spec_c2 (o : ℕ → NxGraph → (ℤ × ℤ) × (ℤ × ℤ)) (t m : ℚ) (st : NxGraph × NxGraph)
    (h : st.2.edges.card < 2 ∨ (endpointSet st.2).card < 4) :
    double_edge_swap o t m st = SwapResult.mk st 0 0 SwapOutcome.insufficientGraph := by
  rw [double_edge_swap, if_pos h]

/-- Witness for C2: the 3-node triangle of spec Scenario B has only 3
reachable distinct endpoints. -/
theorem spec_c2_witness :
    double_edge_swap cOrT 3 30 (cGT, cGT) =
      SwapResult.mk (cGT, cGT) 0 0 SwapOutcome.insufficientGraph :=
  spec_c2 cOrT 3 30 (cGT, cGT) (by decide)

/-- C4: shuffle_network never mutates the graph it was given: all rewiring
happens on the duplicate (the second store component), and after the call
the original store component is the input graph itself, with node set, edge
set and edge attributes unchanged and available for comparison. -/
theorem spec_c4 (G : NxGraph) (o : ℕ → NxGraph → (ℤ × ℤ) × (ℤ × ℤ)) (n_swaps : ℚ) :
    (shuffle_network o G n_swaps).1.1 = G ∧
    (shuffle_network o G n_swaps).1.1.nodes = G.nodes ∧
    (shuffle_network o G n_swaps).1.1.edges = G.edges ∧
    (shuffle_network o G n_swaps).1.1.eattrs = G.eattrs := by
  have h : (shuffle_network o G n_swaps).1.1 = G :=
    double_edge_swap_store1 o (targetSwaps G n_swaps) (maxAttempts G n_swaps) (G, G.copy)
  exact ⟨h, by rw [h], by rw [h], by rw [h]⟩

/-- C5: After every shuffle run the reported edge-overlap similarity equals
the number of edges present in both the original and the shuffled graph
divided by the number of edges in the original graph, and for every input
graph with at least one edge this ratio lies in the closed interval from 0
to 1. -/
theorem spec_c5 (G : NxGraph) (o : ℕ → NxGraph → (ℤ × ℤ) × (ℤ × ℤ)) (n_swaps : ℚ)
    (h1 : 1 ≤ G.edges.card) :
    (shuffle_network o G n_swaps).2.similarity =
      ((G.edges ∩ (shuffle_network o G n_swaps).1.2.edges).card : ℚ) / (G.edges.card : ℚ) ∧
    0 ≤ (shuffle_network o G n_swaps).2.similarity ∧
    (shuffle_network o G n_swaps).2.similarity ≤ 1 := by
  have hsim := shuffle_network_similarity o G n_swaps
  have hpos : (0 : ℚ) < (G.edges.card : ℚ) := by
    have : 0 < G.edges.card := lt_of_lt_of_le Nat.zero_lt_one h1
    exact_mod_cast this
  have hle : ((G.edges ∩ (shuffle_network o G n_swaps).1.2.edges).card : ℚ)
      ≤ (G.edges.card : ℚ) := by
    exact_mod_cast Finset.card_le_card Finset.inter_subset_left
  refine ⟨hsim, ?_, ?_⟩
  · rw [hsim]
    exact div_nonneg (Nat.cast_nonneg _) (Nat.cast_nonneg _)
  · rw [hsim]
    exact (div_le_one hpos).mpr hle

/-- Witness for C5: the similarity of the 4-cycle run is within bounds. -/
theorem spec_c5_witness : 0 ≤ (shuffle_network cOr1 cG1 1).2.similarity :=
  (spec_c5 cG1 cOr1 1 (by decide)).2.1

theorem mk_eq_div (n : ℤ) (d : ℕ) (h1 : d ≠ 0) (h2 : n.natAbs.Coprime d) :
    (⟨n, d, h1, h2⟩ : ℚ) = (n : ℚ) / (d : ℚ) := by
  rw [show (⟨n, d, h1, h2⟩ : ℚ) = Rat.mk' n d h1 h2 from rfl, Rat.mk'_eq_divInt,
    Rat.divInt_eq_div]
  norm_cast

/-- C6 (amended): for every graph and swap-factor, the engine's target swap
count equals the graph's edge count multiplied by the caller-supplied swap
factor (whose command-line default is 1), its attempt ceiling equals that
target multiplied by 10, and, for any nonnegative swap factor, the engine
performs fewer than target + 1 successful swaps and makes fewer than
ceiling + 1 attempts (hence at most the target, respectively the ceiling,
whenever that bound is a whole number; a fractional target can be exceeded
by less than one swap, see the counterexample). -/
theorem spec_c6 (G W : NxGraph) (o : ℕ → NxGraph → (ℤ × ℤ) × (ℤ × ℤ)) (f : ℚ)
    (hf : 0 ≤ f) :
    targetSwaps G f = (G.edges.card : ℚ) * f ∧
    maxAttempts G f = targetSwaps G f * 10 ∧
    (parse_arguments none none none none).nSwaps = 1 ∧
    ((double_edge_swap o (targetSwaps G f) (maxAttempts G f) (G, W)).successes : ℚ)
      < targetSwaps G f + 1 ∧
    ((double_edge_swap o (targetSwaps G f) (maxAttempts G f) (G, W)).attempts : ℚ)
      < maxAttempts G f + 1 := by
  have ht : 0 ≤ targetSwaps G f := mul_nonneg (Nat.cast_nonneg _) hf
  have hm : 0 ≤ maxAttempts G f := by
    rw [maxAttempts]
    exact mul_nonneg ht (by norm_num)
  have hb := double_edge_swap_bounds o (targetSwaps G f) (maxAttempts G f) (G, W) ht hm
  exact ⟨rfl, rfl, rfl, hb.1, hb.2⟩

/-- Witness for C6 (amended): the bound at swap factor 1 on the three-edge
matching. -/
theorem spec_c6_witness :
    ((double_edge_swap cOr6 (targetSwaps cG6 1) (maxAttempts cG6 1) (cG6, cG6)).successes : ℚ)
      < targetSwaps cG6 1 + 1 :=
  (spec_c6 cG6 cG6 cOr6 1 (by norm_num)).2.2.2.1

/-- Counterexample for C6 as stated: with swap factor one half on a
three-edge graph the target is 3/2, and a run of the engine performs 2
successful swaps, which exceeds the target, so "performs no more successful
swaps than the target" fails for fractional targets. -/
theorem spec_c6_counterexample :
    targetSwaps cG6 cHalf = (cG6.edges.card : ℚ) * cHalf ∧
    (double_edge_swap cOr6 (targetSwaps cG6 cHalf) (maxAttempts cG6 cHalf)
      (cG6, cG6.copy)).successes = 2 ∧
    ¬(((double_edge_swap cOr6 (targetSwaps cG6 cHalf) (maxAttempts cG6 cHalf)
      (cG6, cG6.copy)).successes : ℚ) ≤ targetSwaps cG6 cHalf) := by
  have hce : cG6.edges.card = 3 := by decide
  have hhalf : cHalf = 1 / 2 := by
    rw [show cHalf = Rat.mk' 1 2 (by decide) (by decide) from rfl, Rat.mk'_eq_divInt,
      Rat.divInt_eq_div]
    norm_num
  have h32 : (⟨3, 2, by decide, by decide⟩ : ℚ) = 3 / 2 := by
    rw [show (⟨3, 2, by decide, by decide⟩ : ℚ) = Rat.mk' 3 2 (by decide) (by decide) from rfl,
      Rat.mk'_eq_divInt, Rat.divInt_eq_div]
    norm_num
  have ht : targetSwaps cG6 cHalf = (⟨3, 2, by decide, by decide⟩ : ℚ) := by
    rw [targetSwaps, hce, hhalf, h32]
    norm_num
  have hm : maxAttempts cG6 cHalf = 15 := by
    rw [maxAttempts, ht, h32]
    norm_num
  have hsucc : (double_edge_swap cOr6 (⟨3, 2, by decide, by decide⟩ : ℚ) 15
      (cG6, cG6.copy)).successes = 2 := by decide
  refine ⟨rfl, ?_, ?_⟩
  · rw [ht, hm]
    exact hsucc
  · rw [ht, hm, hsucc, h32]
    norm_num


/-- C3: evaluation at the failing input.  On a two-edge graph with swap
factor 2 under an oracle where no attempt succeeds, the engine exhausts its
budget after 40 attempts (the ceiling edge_len*n_swaps*10 = 40), the run
returns the working graph with a warning rather than an error, and that
warning names the origin label, the configured target (4) and an attempt
count of 20 (the edge_len*10 literal of source line 23) — not the 40
attempts actually used — refuting the claim that the warning names the
number of attempts actually used (the attempt ceiling). -/
theorem spec_c3 :
    (shuffle_network cOr3 cG3 2).2.budgetWarning =
      some (SwapWarning.mk 20 4 ("g.txt")) ∧
    (shuffle_network cOr3 cG3 2).2.networkErrorPrinted = false ∧
    (double_edge_swap cOr3 (targetSwaps cG3 2) (maxAttempts cG3 2)
      (cG3, cG3.copy)).attempts = 40 ∧
    (double_edge_swap cOr3 (targetSwaps cG3 2) (maxAttempts cG3 2)
      (cG3, cG3.copy)).outcome = SwapOutcome.budgetExhausted ∧
    (double_edge_swap cOr3 (targetSwaps cG3 2) (maxAttempts cG3 2)
      (cG3, cG3.copy)).store.2 = (shuffle_network cOr3 cG3 2).1.2 ∧
    maxAttempts cG3 2 = 40 ∧
    (20 : ℚ) ≠ 40 := by
  have hce : cG3.edges.card = 2 := by decide
  have ht : targetSwaps cG3 2 = 4 := by
    rw [targetSwaps, hce]
    norm_num
  have hm : maxAttempts cG3 2 = 40 := by
    rw [maxAttempts, ht]
    norm_num
  have hout : (double_edge_swap cOr3 4 40 (cG3, cG3.copy)).outcome
      = SwapOutcome.budgetExhausted := by decide
  have hatt : (double_edge_swap cOr3 4 40 (cG3, cG3.copy)).attempts = 40 := by decide
  have hlab : (double_edge_swap cOr3 4 40 (cG3, cG3.copy)).store.1.label = "g.txt" := by
    rw [double_edge_swap_store1]
    rfl
  refine ⟨?_, ?_, ?_, ?_, ?_, hm, by norm_num⟩
  · simp only [shuffle_network, ht, hm, hout, hlab, hce]
    norm_num
  · simp only [shuffle_network, ht, hm, hout]
    rfl
  · rw [ht, hm]
    exact hatt
  · rw [ht, hm]
    exact hout
  · simp only [shuffle_network, ht, hm]

/-- C7: evaluation at the failing inputs.  A zero-byte file makes read_csv
(lines 66-69, outside the try block of lines 75-85) raise EmptyDataError,
and a one-column file under the default node_cols makes the positional
column selection of line 71 (also outside the try block) raise IndexError;
both exceptions escape load_edgelist_to_networkx instead of being reported
with an empty graph substituted, refuting the claim that no exception
escapes the loader. -/
theorem spec_c7 :
    load_edgelist_to_networkx ⟨"empty.txt", none⟩ IdType.Entrez false [0, 1] false =
      Except.error LoadErr.emptyDataError ∧
    load_edgelist_to_networkx ⟨"one_col.txt", some (["A"], [[5]])⟩ IdType.Entrez false
      [0, 1] false = Except.error LoadErr.indexError :=
  ⟨rfl, rfl⟩

/-- C8: serializing a graph fails with the serialization-misconfiguration
error exactly when the configured source and target header names are
identical; with distinct header names the output is the two fixed headers
followed by one two-cell row per edge and no index column. -/
theorem spec_c8 (G : NxGraph) (a b : String) :
    (write_networkx_to_file G a b = Except.error WriteErr.invalidColumnNames ↔ a = b) ∧
    (a ≠ b →
      write_networkx_to_file G a b = Except.ok ([a, b], to_pandas_edgelist G) ∧
      (to_pandas_edgelist G).length = G.edges.card ∧
      ∀ r ∈ to_pandas_edgelist G, r.length = 2) := by
  constructor
  · constructor
    · intro h
      by_contra hab
      rw [write_networkx_to_file, if_neg hab] at h
      exact Except.noConfusion h
    · intro h
      rw [write_networkx_to_file, if_pos h]
  · intro hab
    refine ⟨by rw [write_networkx_to_file, if_neg hab], ?_, ?_⟩
    · rw [to_pandas_edgelist, List.length_map, Finset.length_sort,
        Finset.card_image_of_injective _ sortPair_injective]
    · intro r hr
      rw [to_pandas_edgelist] at hr
      obtain ⟨p, hp, rfl⟩ := List.mem_map.mp hr
      rfl

/-- Witness for C8: the default header names Node_A and Node_B differ, so
the two-edge graph serializes successfully. -/
theorem spec_c8_witness :
    write_networkx_to_file cG3 ("Node_A") ("Node_B") =
      Except.ok ([("Node_A"), ("Node_B")], to_pandas_edgelist cG3) :=
  ((spec_c8 cG3 ("Node_A") ("Node_B")).2 (by decide)).1

theorem toFinset_map_eq_image {α β : Type} [DecidableEq α] [DecidableEq β]
    (f : α → β) (l : List α) : (l.map f).toFinset = l.toFinset.image f := by
  ext e
  simp

theorem to_pandas_edgelist_congr (G1 G2 : NxGraph) (h : G1.edges = G2.edges) :
    to_pandas_edgelist G1 = to_pandas_edgelist G2 := by
  rw [to_pandas_edgelist, to_pandas_edgelist, h]

/-- C9: writing a graph to an edge-list file and loading that file back,
then re-saving with unchanged column names, reproduces the same edge set of
unordered node pairs. -/
theorem spec_c9 (G : NxGraph) (a b fname : String) (idt : IdType) (hab : a ≠ b) :
    write_networkx_to_file G a b = Except.ok ([a, b], to_pandas_edgelist G) ∧
    ∃ G2 : NxGraph,
      load_edgelist_to_networkx ⟨fname, some ([a, b], to_pandas_edgelist G)⟩ idt false
        [0, 1] false = Except.ok G2 ∧
      G2.edges = G.edges ∧
      write_networkx_to_file G2 a b = Except.ok ([a, b], to_pandas_edgelist G) := by
  have hw : write_networkx_to_file G a b = Except.ok ([a, b], to_pandas_edgelist G) := by
    rw [write_networkx_to_file, if_neg hab]
  have hia : List.indexOf a [a, b] = 0 := List.indexOf_cons_self a [b]
  have hib : List.indexOf b [a, b] = 1 := by
    rw [List.indexOf_cons_ne _ (fun hc => hab hc)]
    simp [List.indexOf_cons_self]
  have hload : load_edgelist_to_networkx ⟨fname, some ([a, b], to_pandas_edgelist G)⟩ idt false
      [0, 1] false
      = Except.ok (NxGraph.mk
          (from_pandas_edgelist [a, b] (to_pandas_edgelist G) a b false).nodes
          (from_pandas_edgelist [a, b] (to_pandas_edgelist G) a b false).edges
          (from_pandas_edgelist [a, b] (to_pandas_edgelist G) a b false).eattrs
          fname) := rfl
  have hedges2 : (from_pandas_edgelist [a, b] (to_pandas_edgelist G) a b false).edges
      = G.edges := by
    show ((to_pandas_edgelist G).map (fun r =>
        s(cell r (List.indexOf a [a, b]), cell r (List.indexOf b [a, b])))).toFinset = G.edges
    rw [hia, hib, to_pandas_edgelist, List.map_map]
    have hcomp : ((fun r => s(cell r 0, cell r 1)) ∘ fun p : ℤ × ℤ => [p.1, p.2])
        = fun p : ℤ × ℤ => s(p.1, p.2) := by
      funext p
      simp [cell, Function.comp]
    rw [hcomp, toFinset_map_eq_image, Finset.sort_toFinset, Finset.image_image]
    have hid : ((fun p : ℤ × ℤ => s(p.1, p.2)) ∘ sortPair) = id := by
      funext e
      simp only [Function.comp_apply, id_eq]
      exact mk_sortPair e
    rw [hid, Finset.image_id]
  refine ⟨hw, NxGraph.mk
      (from_pandas_edgelist [a, b] (to_pandas_edgelist G) a b false).nodes
      (from_pandas_edgelist [a, b] (to_pandas_edgelist G) a b false).edges
      (from_pandas_edgelist [a, b] (to_pandas_edgelist G) a b false).eattrs
      fname, hload, hedges2, ?_⟩
  rw [write_networkx_to_file, if_neg hab,
    to_pandas_edgelist_congr (NxGraph.mk
      (from_pandas_edgelist [a, b] (to_pandas_edgelist G) a b false).nodes
      (from_pandas_edgelist [a, b] (to_pandas_edgelist G) a b false).edges
      (from_pandas_edgelist [a, b] (to_pandas_edgelist G) a b false).eattrs
      fname) G hedges2]

/-- Witness for C9: the round trip on the concrete two-edge graph under the
default header names. -/
theorem spec_c9_witness :
    ∃ G2 : NxGraph,
      load_edgelist_to_networkx ⟨("r.txt"), some ([("Node_A"), ("Node_B")],
        to_pandas_edgelist cG3)⟩ IdType.Entrez false [0, 1] false = Except.ok G2 ∧
      G2.edges = cG3.edges ∧
      write_networkx_to_file G2 ("Node_A") ("Node_B") =
        Except.ok ([("Node_A"), ("Node_B")], to_pandas_edgelist cG3) :=
  (spec_c9 cG3 ("Node_A") ("Node_B") ("r.txt") IdType.Entrez (by decide)).2

/-- C10: the command line's testMode flag defaults to 1 and is coerced to
True; with testmode enabled the loader reads at most the first 1000 data
rows, so loading any file is the same as loading the file truncated to its
first 1000 data rows, and every graph successfully loaded in testmode has
at most 1000 edges — a file with more than 1000 data rows therefore yields
a graph built from a truncated edge list. -/
theorem spec_c10 :
    (parse_arguments none none none none).testMode = true ∧
    (∀ (fname : String) (hdr : List String) (rows : List (List ℤ)) (idt : IdType) (kc : Bool),
      load_edgelist_to_networkx ⟨fname, some (hdr, rows)⟩ idt true [0, 1] kc =
        load_edgelist_to_networkx ⟨fname, some (hdr, rows.take 1000)⟩ idt true [0, 1] kc) ∧
    (∀ (fname : String) (content : Option (List String × List (List ℤ))) (idt : IdType)
        (kc : Bool) (G2 : NxGraph),
      load_edgelist_to_networkx ⟨fname, content⟩ idt true [0, 1] kc = Except.ok G2 →
      G2.edges.card ≤ 1000) := by
  refine ⟨rfl, ?_, ?_⟩
  · intro fname hdr rows idt kc
    have h : read_csv (some (hdr, rows)) (some 1000)
        = read_csv (some (hdr, rows.take 1000)) (some 1000) := by
      simp [read_csv, List.take_take]
    unfold load_edgelist_to_networkx
    dsimp only
    simp only [reduceIte]
    rw [h]
  · intro fname content idt kc G2 h
    cases content with
    | none => simp [load_edgelist_to_networkx, read_csv] at h
    | some pr =>
      obtain ⟨hdr, rows⟩ := pr
      rcases hg0 : hdr[0]? with _ | c0
      · simp [load_edgelist_to_networkx, read_csv, hg0] at h
      · rcases hg1 : hdr[1]? with _ | c1
        · simp [load_edgelist_to_networkx, read_csv, hg0, hg1] at h
        · simp [load_edgelist_to_networkx, read_csv, hg0, hg1] at h
          subst h
          show ((List.take 1000 rows).map (fun r =>
              s(cell r (hdr.indexOf c0), cell r (hdr.indexOf c1)))).toFinset.card ≤ 1000
          refine le_trans (List.toFinset_card_le _) ?_
          rw [List.length_map]
          exact rows.length_take_le 1000

/-- Witness for C10: a concrete one-row file loads in testmode to a graph
within the row cap. -/
theorem spec_c10_witness : cG10w.edges.card ≤ 1000 :=
  spec_c10.2.2 ("w.txt") (some ([("A"), ("B")], [[1, 2]])) IdType.Entrez false cG10w (by decide)
